import Mathlib

/-!
Shallow embedding of the job-queue engine (`src/queue/db.py` and
`src/queue/worker.py`) and proofs about it.

Modelling conventions:
* A job row (`Job`) mirrors the columns of the `jobs` table.
* Timestamps (`created_at`, `updated_at`, `next_retry_at`, `now`) are `Nat`
  seconds; the source stores ISO-8601 UTC strings whose lexicographic SQL
  comparison agrees with chronological order.
* The store (`Db`) is the list of rows of the `jobs` table, in insertion
  (rowid) order; SQL `UPDATE ... WHERE` becomes `List.map` with the WHERE
  clause as an `if` guard, and `cursor.rowcount > 0` becomes `List.any`.
* `fetch_and_lock_job` is split into its two SQL statements, `selectJob`
  (the `SELECT ... ORDER BY created_at ASC LIMIT 1`) and `lockJob` (the
  guarded `UPDATE`), exactly as in the source, so that interleavings of two
  concurrent callers can be expressed; the sequential function composes them
  and — as in the source — returns the row obtained by the SELECT without
  inspecting the effect of the UPDATE.
-/

namespace JobQueue

/-- Job states as stored in the `state` column. -/
inductive JState where
  | pending
  | processing
  | completed
  | failed
  | dead
deriving DecidableEq, Repr

/-- One row of the `jobs` table (`src/queue/db.py`, `_init_db`). -/
structure Job where
  id : String
  command : String
  state : JState
  attempts : Nat
  max_retries : Nat
  created_at : Nat
  updated_at : Nat
  worker_id : Option String
  last_error : Option String
  next_retry_at : Option Nat
deriving DecidableEq, Repr

/-- The `jobs` table. -/
abbrev Db := List Job

/-- Model of `Database.enqueue`: INSERT a fresh row with `state='pending'`, `attempts=0`
and `created_at = updated_at = now`; a duplicate id raises `IntegrityError`
(primary key), caught and turned into `False` with no mutation. -/
def enqueue (db : Db) (id command : String) (max_retries now : Nat) : Db × Bool :=
  if db.any (fun j => j.id = id) then (db, false)
  else
    (db ++ [{ id := id, command := command, state := .pending, attempts := 0,
              max_retries := max_retries, created_at := now, updated_at := now,
              worker_id := none, last_error := none, next_retry_at := none }],
     true)

/-- Model of `Database.update_job_state`: `UPDATE jobs SET state, updated_at, worker_id,
last_error [, attempts = attempts + 1] WHERE id = ?`; returns
`cursor.rowcount > 0`. -/
def update_job_state (db : Db) (job_id : String) (state : JState)
    (error : Option String) (worker_id : Option String)
    (increment_attempts : Bool) (now : Nat) : Db × Bool :=
  (db.map (fun j =>
      if j.id = job_id then
        { j with state := state, updated_at := now, worker_id := worker_id,
                 last_error := error,
                 attempts := if increment_attempts then j.attempts + 1 else j.attempts }
      else j),
   db.any (fun j => j.id = job_id))

/-- Eligibility: the WHERE clause of the SELECT in `fetch_and_lock_job`:
`state = 'pending' OR (state = 'failed' AND attempts < max_retries AND
(next_retry_at IS NULL OR next_retry_at <= now))`. -/
def eligible (now : Nat) (j : Job) : Bool :=
  decide (j.state = .pending) ||
    (decide (j.state = .failed) && decide (j.attempts < j.max_retries) &&
      (match j.next_retry_at with
       | none => true
       | some t => decide (t ≤ now)))

/-- The SELECT of `fetch_and_lock_job`: first eligible row in
`ORDER BY created_at ASC` order (`LIMIT 1`); on a `created_at` tie the scan
keeps the earlier row, matching SQLite's stable scan order. -/
def selectJob : Db → Nat → Option Job
  | [], _ => none
  | j :: rest, now =>
    if eligible now j then
      match selectJob rest now with
      | none => some j
      | some b => if j.created_at ≤ b.created_at then some j else some b
    else selectJob rest now

/-- The UPDATE of `fetch_and_lock_job`: `UPDATE jobs SET state='processing',
worker_id, updated_at WHERE id = ? AND (state='pending' OR state='failed')`. -/
def lockJob (db : Db) (job_id worker : String) (now : Nat) : Db :=
  db.map (fun j =>
    if j.id = job_id ∧ (j.state = .pending ∨ j.state = .failed) then
      { j with state := .processing, worker_id := some worker, updated_at := now }
    else j)

/-- Model of `Database.fetch_and_lock_job` run without interference: SELECT, then the
guarded UPDATE, then return the row the SELECT produced (the source returns
`job`, the dict built from the SELECT, without checking the UPDATE). -/
def fetch_and_lock_job (db : Db) (worker : String) (now : Nat) : Db × Option Job :=
  match selectJob db now with
  | none => (db, none)
  | some j => (lockJob db j.id worker now, some j)

/-- Model of `Database.set_next_retry`: `UPDATE jobs SET next_retry_at = ? WHERE id = ?`;
returns `True` unconditionally (no rowcount check). Note: does not touch
`updated_at`. -/
def set_next_retry (db : Db) (job_id : String) (retry_at : Nat) : Db × Bool :=
  (db.map (fun j =>
      if j.id = job_id then { j with next_retry_at := some retry_at } else j),
   true)

/-- Model of `Database.move_to_dlq`: delegates to `update_job_state` with
`state='dead'`, the error text, `worker_id=None`, no attempt increment. -/
def move_to_dlq (db : Db) (job_id error : String) (now : Nat) : Db × Bool :=
  update_job_state db job_id .dead (some error) none false now

/-- Model of `Database.retry_dlq_job`: `UPDATE jobs SET state='pending', attempts=0,
worker_id=NULL, last_error=NULL, next_retry_at=NULL, updated_at=? WHERE id = ?
AND state = 'dead'`; returns `True` unconditionally (no rowcount check). -/
def retry_dlq_job (db : Db) (job_id : String) (now : Nat) : Db × Bool :=
  (db.map (fun j =>
      if j.id = job_id ∧ j.state = .dead then
        { j with state := .pending, attempts := 0, worker_id := none,
                 last_error := none, next_retry_at := none, updated_at := now }
      else j),
   true)

/-- The success branch of `Worker._process_job`:
`update_job_state(job_id, state="completed", worker_id=None)` (error defaults
to `None`, no attempt increment). -/
def complete (db : Db) (job_id : String) (now : Nat) : Db × Bool :=
  update_job_state db job_id .completed none none false now

/-- Model of `Worker._handle_failure`, parameterised by the snapshot fields it reads
from the `job` dict it was handed (`job["id"]`, `job["attempts"]`,
`job["max_retries"]`): mark failed with attempt increment; if
`snapAttempts + 1 >= snapMax` move to DLQ, else schedule a retry at
`now + base ^ (snapAttempts + 1)` seconds. -/
def handle_failure (db : Db) (jobId : String) (snapAttempts snapMax : Nat)
    (error : String) (base now : Nat) : Db :=
  let db1 := (update_job_state db jobId .failed (some error) none true now).1
  if snapMax ≤ snapAttempts + 1 then
    (move_to_dlq db1 jobId error now).1
  else
    (set_next_retry db1 jobId (now + base ^ (snapAttempts + 1))).1

/-- One store transition, one constructor per mutating call the repository
actually makes: `enqueue` (CLI), `fetch_and_lock_job` (worker poll),
the completed-state `update_job_state` (worker success path),
`_handle_failure` (worker failure path, with an arbitrary snapshot of the
job dict the worker holds), and `retry_dlq_job` (CLI `dlq retry`). -/
inductive Step : Db → Db → Prop where
  | enq (db : Db) (id command : String) (mr now : Nat) :
      Step db (enqueue db id command mr now).1
  | acquire (db : Db) (worker : String) (now : Nat) :
      Step db (fetch_and_lock_job db worker now).1
  | complete (db : Db) (job_id : String) (now : Nat) :
      Step db (complete db job_id now).1
  | fail (db : Db) (jobId : String) (snapAttempts snapMax : Nat)
      (error : String) (base now : Nat) :
      Step db (handle_failure db jobId snapAttempts snapMax error base now)
  | retryDlq (db : Db) (job_id : String) (now : Nat) :
      Step db (retry_dlq_job db job_id now).1

/-- States reachable from the empty table through the repository's calls. -/
inductive Reachable : Db → Prop where
  | init : Reachable []
  | step {db db' : Db} : Reachable db → Step db db' → Reachable db'

/-! ### Basic facts about the SELECT of `fetch_and_lock_job` -/

theorem eligible_state {now : Nat} {j : Job} (h : eligible now j = true) :
    j.state = JState.pending ∨ j.state = JState.failed := by
  unfold eligible at h
  rcases Bool.or_eq_true_iff.1 h with h1 | h1
  · exact Or.inl (of_decide_eq_true h1)
  · rcases Bool.and_eq_true_iff.1 h1 with ⟨h2, _⟩
    rcases Bool.and_eq_true_iff.1 h2 with ⟨h3, _⟩
    exact Or.inr (of_decide_eq_true h3)

theorem eligible_failed_retry {now t : Nat} {j : Job} (h : eligible now j = true)
    (hf : j.state = JState.failed) (ht : j.next_retry_at = some t) : t ≤ now := by
  unfold eligible at h
  rcases Bool.or_eq_true_iff.1 h with h1 | h1
  · rw [hf] at h1; exact absurd (of_decide_eq_true h1) (by intro hc; cases hc)
  · rcases Bool.and_eq_true_iff.1 h1 with ⟨_, h2⟩
    rw [ht] at h2
    exact of_decide_eq_true h2

theorem selectJob_mem : ∀ {db : Db} {now : Nat} {j : Job},
    selectJob db now = some j → j ∈ db := by
  intro db
  induction db with
  | nil => intro now j h; simp [selectJob] at h
  | cons a rest ih =>
    intro now j h
    simp only [selectJob] at h
    by_cases he : eligible now a = true
    · rw [if_pos he] at h
      cases hr : selectJob rest now with
      | none => rw [hr] at h; cases h; exact List.mem_cons_self a rest
      | some b =>
        simp only [hr] at h
        by_cases hc : a.created_at ≤ b.created_at
        · rw [if_pos hc] at h; cases h; exact List.mem_cons_self a rest
        · rw [if_neg hc] at h; cases h; exact List.mem_cons_of_mem a (ih hr)
    · rw [if_neg he] at h
      exact List.mem_cons_of_mem a (ih h)

theorem selectJob_eligible : ∀ {db : Db} {now : Nat} {j : Job},
    selectJob db now = some j → eligible now j = true := by
  intro db
  induction db with
  | nil => intro now j h; simp [selectJob] at h
  | cons a rest ih =>
    intro now j h
    simp only [selectJob] at h
    by_cases he : eligible now a = true
    · rw [if_pos he] at h
      cases hr : selectJob rest now with
      | none => rw [hr] at h; cases h; exact he
      | some b =>
        simp only [hr] at h
        by_cases hc : a.created_at ≤ b.created_at
        · rw [if_pos hc] at h; cases h; exact he
        · rw [if_neg hc] at h; cases h; exact ih hr
    · rw [if_neg he] at h
      exact ih h

theorem selectJob_none_iff : ∀ {db : Db} {now : Nat},
    selectJob db now = none ↔ ∀ k ∈ db, eligible now k = false := by
  intro db
  induction db with
  | nil => intro now; simp [selectJob]
  | cons a rest ih =>
    intro now
    constructor
    · intro h
      simp only [selectJob] at h
      by_cases he : eligible now a = true
      · rw [if_pos he] at h
        cases hr : selectJob rest now with
        | none => rw [hr] at h; cases h
        | some b =>
          simp only [hr] at h
          by_cases hc : a.created_at ≤ b.created_at
          · rw [if_pos hc] at h; cases h
          · rw [if_neg hc] at h; cases h
      · rw [if_neg he] at h
        intro k hk
        rcases List.mem_cons.1 hk with rfl | hk
        · exact Bool.not_eq_true _ ▸ Bool.of_not_eq_true he
        · exact ih.1 h k hk
    · intro h
      simp only [selectJob]
      have hr : selectJob rest now = none :=
        ih.2 (fun k hk => h k (List.mem_cons_of_mem a hk))
      have ha := h a (List.mem_cons_self a rest)
      rw [if_neg (by simp [ha])]
      exact hr

theorem selectJob_min : ∀ {db : Db} {now : Nat} {j : Job},
    selectJob db now = some j →
    ∀ k ∈ db, eligible now k = true → j.created_at ≤ k.created_at := by
  intro db
  induction db with
  | nil => intro now j h; simp [selectJob] at h
  | cons a rest ih =>
    intro now j h k hk hkel
    simp only [selectJob] at h
    by_cases he : eligible now a = true
    · rw [if_pos he] at h
      cases hr : selectJob rest now with
      | none =>
        rw [hr] at h; cases h
        rcases List.mem_cons.1 hk with rfl | hk
        · exact Nat.le_refl _
        · exact absurd hkel (by simp [selectJob_none_iff.1 hr k hk])
      | some b =>
        simp only [hr] at h
        have hbmin := ih hr
        by_cases hc : a.created_at ≤ b.created_at
        · rw [if_pos hc] at h; cases h
          rcases List.mem_cons.1 hk with rfl | hk
          · exact Nat.le_refl _
          · exact Nat.le_trans hc (hbmin k hk hkel)
        · rw [if_neg hc] at h; cases h
          rcases List.mem_cons.1 hk with rfl | hk
          · exact Nat.le_of_lt (Nat.lt_of_not_le hc)
          · exact hbmin k hk hkel
    · rw [if_neg he] at h
      rcases List.mem_cons.1 hk with rfl | hk
      · exact absurd hkel he
      · exact ih h k hk hkel

/-! ### Invariant preservation over the repository's transitions -/

theorem update_job_state_id_state {db : Db} {jid : String} {st : JState}
    {e w : Option String} {inc : Bool} {now : Nat} :
    ∀ j ∈ (update_job_state db jid st e w inc now).1, j.id = jid → j.state = st := by
  intro j hj hid
  rcases List.mem_map.1 hj with ⟨k, hk, rfl⟩
  by_cases hc : k.id = jid
  · rw [if_pos hc]
  · rw [if_neg hc] at hid ⊢
    exact absurd hid hc

theorem step_worker_inv {db db' : Db} (hs : Step db db')
    (hw : ∀ j ∈ db, (j.worker_id ≠ none ↔ j.state = JState.processing)) :
    ∀ j ∈ db', (j.worker_id ≠ none ↔ j.state = JState.processing) := by
  cases hs with
  | enq id command mr now =>
    intro j hj
    unfold enqueue at hj
    split at hj
    · exact hw j hj
    · rcases List.mem_append.1 hj with h1 | h1
      · exact hw j h1
      · rcases List.mem_singleton.1 h1 with rfl
        simp
  | acquire worker now =>
    intro j hj
    unfold fetch_and_lock_job at hj
    cases hsel : selectJob db now with
    | none => rw [hsel] at hj; exact hw j hj
    | some b =>
      simp only [hsel] at hj
      unfold lockJob at hj
      rcases List.mem_map.1 hj with ⟨k, hk, rfl⟩
      by_cases hc : k.id = b.id ∧ (k.state = JState.pending ∨ k.state = JState.failed)
      · rw [if_pos hc]; simp
      · rw [if_neg hc]; exact hw k hk
  | complete job_id now =>
    intro j hj
    unfold complete update_job_state at hj
    rcases List.mem_map.1 hj with ⟨k, hk, rfl⟩
    by_cases hc : k.id = job_id
    · rw [if_pos hc]; simp
    · rw [if_neg hc]; exact hw k hk
  | fail jobId snapAttempts snapMax error base now =>
    intro j hj
    have hw1 : ∀ j ∈ (update_job_state db jobId JState.failed (some error) none true now).1,
        (j.worker_id ≠ none ↔ j.state = JState.processing) := by
      intro j hj
      unfold update_job_state at hj
      rcases List.mem_map.1 hj with ⟨k, hk, rfl⟩
      by_cases hc : k.id = jobId
      · rw [if_pos hc]; simp
      · rw [if_neg hc]; exact hw k hk
    unfold handle_failure at hj
    split at hj
    · unfold move_to_dlq update_job_state at hj
      rcases List.mem_map.1 hj with ⟨k, hk, rfl⟩
      by_cases hc : k.id = jobId
      · rw [if_pos hc]; simp
      · rw [if_neg hc]; exact hw1 k hk
    · unfold set_next_retry at hj
      rcases List.mem_map.1 hj with ⟨k, hk, rfl⟩
      by_cases hc : k.id = jobId
      · rw [if_pos hc]; simpa using hw1 k hk
      · rw [if_neg hc]; exact hw1 k hk
  | retryDlq job_id now =>
    intro j hj
    unfold retry_dlq_job at hj
    rcases List.mem_map.1 hj with ⟨k, hk, rfl⟩
    by_cases hc : k.id = job_id ∧ k.state = JState.dead
    · rw [if_pos hc]; simp
    · rw [if_neg hc]; exact hw k hk

theorem step_pending_inv {db db' : Db} (hs : Step db db')
    (hp : ∀ j ∈ db, j.state = JState.pending → j.next_retry_at = none) :
    ∀ j ∈ db', j.state = JState.pending → j.next_retry_at = none := by
  cases hs with
  | enq id command mr now =>
    intro j hj
    unfold enqueue at hj
    split at hj
    · exact hp j hj
    · rcases List.mem_append.1 hj with h1 | h1
      · exact hp j h1
      · rcases List.mem_singleton.1 h1 with rfl
        intro _; rfl
  | acquire worker now =>
    intro j hj
    unfold fetch_and_lock_job at hj
    cases hsel : selectJob db now with
    | none => rw [hsel] at hj; exact hp j hj
    | some b =>
      simp only [hsel] at hj
      unfold lockJob at hj
      rcases List.mem_map.1 hj with ⟨k, hk, rfl⟩
      by_cases hc : k.id = b.id ∧ (k.state = JState.pending ∨ k.state = JState.failed)
      · rw [if_pos hc]; intro h; cases h
      · rw [if_neg hc]; exact hp k hk
  | complete job_id now =>
    intro j hj
    unfold complete update_job_state at hj
    rcases List.mem_map.1 hj with ⟨k, hk, rfl⟩
    by_cases hc : k.id = job_id
    · rw [if_pos hc]; intro h; cases h
    · rw [if_neg hc]; exact hp k hk
  | fail jobId snapAttempts snapMax error base now =>
    intro j hj
    have hp1 : ∀ j ∈ (update_job_state db jobId JState.failed (some error) none true now).1,
        j.state = JState.pending → j.next_retry_at = none := by
      intro j hj
      unfold update_job_state at hj
      rcases List.mem_map.1 hj with ⟨k, hk, rfl⟩
      by_cases hc : k.id = jobId
      · rw [if_pos hc]; intro h; cases h
      · rw [if_neg hc]; exact hp k hk
    unfold handle_failure at hj
    split at hj
    · unfold move_to_dlq update_job_state at hj
      rcases List.mem_map.1 hj with ⟨k, hk, rfl⟩
      by_cases hc : k.id = jobId
      · rw [if_pos hc]; intro h; cases h
      · rw [if_neg hc]; exact hp1 k hk
    · unfold set_next_retry at hj
      rcases List.mem_map.1 hj with ⟨k, hk, rfl⟩
      by_cases hc : k.id = jobId
      · rw [if_pos hc]
        intro h
        exact absurd (update_job_state_id_state k hk hc ▸ h) (by intro hcon; cases hcon)
      · rw [if_neg hc]; exact hp1 k hk
  | retryDlq job_id now =>
    intro j hj
    unfold retry_dlq_job at hj
    rcases List.mem_map.1 hj with ⟨k, hk, rfl⟩
    by_cases hc : k.id = job_id ∧ k.state = JState.dead
    · rw [if_pos hc]; intro _; rfl
    · rw [if_neg hc]; exact hp k hk

/-! ### Concrete rows used in scenarios and witnesses -/

/-- A fresh pending job, as `enqueue` creates it. -/
def jobA0 : Job :=
  { id := "a", command := "echo hi", state := .pending, attempts := 0,
    max_retries := 3, created_at := 0, updated_at := 0,
    worker_id := none, last_error := none, next_retry_at := none }

/-- A pending job with id "b". -/
def jobPendingB : Job :=
  { id := "b", command := "cmd", state := .pending, attempts := 0,
    max_retries := 3, created_at := 0, updated_at := 0,
    worker_id := none, last_error := none, next_retry_at := none }

/-- A dead (DLQ) job with exhausted attempts and a stale retry stamp. -/
def jobDeadC : Job :=
  { id := "c", command := "cmd", state := .dead, attempts := 3,
    max_retries := 3, created_at := 0, updated_at := 4,
    worker_id := none, last_error := some "err", next_retry_at := some 9 }

/-- A failed job whose row was last touched at time 3. -/
def jobFailedD : Job :=
  { id := "d", command := "cmd", state := .failed, attempts := 1,
    max_retries := 3, created_at := 0, updated_at := 3,
    worker_id := none, last_error := some "e", next_retry_at := none }

/-- A job a worker is holding, one failure short of its retry ceiling. -/
def jobProcE : Job :=
  { id := "e", command := "cmd", state := .processing, attempts := 1,
    max_retries := 2, created_at := 0, updated_at := 5,
    worker_id := some "w1", last_error := some "e0", next_retry_at := some 4 }

/-! ### Two concurrent acquisitions, interleaved

`fetch_and_lock_job` issues two SQL statements on its own autocommitting
connection: the SELECT, then the guarded UPDATE. With two workers the storage
engine serialises the statements; in the interleaving SELECT₁, SELECT₂,
UPDATE₁, UPDATE₂ both SELECTs see the same committed state, the first UPDATE
moves the row to `processing` so the second (guarded by
`state IN ('pending','failed')`) matches nothing — but the source returns the
row produced by the caller's own SELECT without inspecting the UPDATE's
rowcount, so both callers receive it. -/

/-- Both workers run their SELECT against `db`, then their UPDATEs run in
order; each caller's return value is its own SELECT result, as in the
source. Returns (final table, worker 1's return, worker 2's return). -/
def racingAcquires (db : Db) (w1 w2 : String) (now : Nat) :
    Db × Option Job × Option Job :=
  let r1 := selectJob db now
  let r2 := selectJob db now
  let db1 := match r1 with
    | none => db
    | some j => lockJob db j.id w1 now
  let db2 := match r2 with
    | none => db1
    | some j => lockJob db1 j.id w2 now
  (db2, r1, r2)

/-- C1: two workers racing on a queue holding the single eligible job
`jobA0` BOTH receive that job: worker 1's guarded UPDATE wins (the final
table shows `worker_id = "w1"`), worker 2's UPDATE matches no row, yet
worker 2's call still returns `jobA0` because `fetch_and_lock_job` never
checks the UPDATE's rowcount. This refutes the claimed mutual exclusion of
acquisition. -/
theorem race_double_acquire :
    (racingAcquires [jobA0] "w1" "w2" 5).2.1 = some jobA0 ∧
    (racingAcquires [jobA0] "w1" "w2" 5).2.2 = some jobA0 ∧
    (racingAcquires [jobA0] "w1" "w2" 5).1 =
      [{ jobA0 with state := JState.processing, worker_id := some "w1",
                    updated_at := 5 }] := by decide

/-- C5: `retry_dlq_job` returns `True` unconditionally. On a store whose only
job "b" is `pending` it mutates nothing yet still returns `true`; on an empty
store it returns `true`; on a genuinely `dead` job it resets
`state/attempts/worker_id/last_error/next_retry_at` as specified and returns
`true`. The claimed `false` return for a non-dead or missing job never
happens: the source never checks `cursor.rowcount`. -/
theorem retry_dlq_return_eval :
    (retry_dlq_job [jobPendingB] "b" 9).2 = true ∧
    (retry_dlq_job [jobPendingB] "b" 9).1 = [jobPendingB] ∧
    (retry_dlq_job ([] : Db) "ghost" 9).2 = true ∧
    (retry_dlq_job [jobDeadC] "c" 9).1 =
      [{ jobDeadC with state := JState.pending, attempts := 0, worker_id := none,
                       last_error := none, next_retry_at := none, updated_at := 9 }] ∧
    (retry_dlq_job [jobDeadC] "c" 9).2 = true := by decide

/-- C8 counterexample: `set_next_retry` mutates the row (its `next_retry_at`
goes from `none` to `some 10`) but leaves `updated_at` at its old value 3 —
the function takes no timestamp at all — so not every mutation bumps
`updated_at`. -/
theorem updated_at_counterexample :
    (set_next_retry [jobFailedD] "d" 10).1 =
      [{ jobFailedD with next_retry_at := some 10 }] ∧
    (set_next_retry [jobFailedD] "d" 10).1.map Job.updated_at = [3] ∧
    jobFailedD.next_retry_at = none := by decide

/-- C2: a sequential `fetch_and_lock_job` call returns a job iff it satisfies
the eligibility predicate (`pending`, or `failed` with `attempts <
max_retries` and `next_retry_at` null or `≤ now`), earliest `created_at`
first; a returned failed job's `next_retry_at` has passed (so a
future-scheduled failed job is never returned, and becomes returnable once
`next_retry_at ≤ now`); the stored row is transitioned to `processing` with
the caller's `worker_id`; and when no job is eligible the call returns `none`
(not an error). -/
theorem acquire_spec (db : Db) (w : String) (now : Nat) :
    (∀ j, (fetch_and_lock_job db w now).2 = some j →
      j ∈ db ∧ eligible now j = true ∧
      (∀ t, j.state = JState.failed → j.next_retry_at = some t → t ≤ now) ∧
      (∀ k ∈ db, eligible now k = true → j.created_at ≤ k.created_at) ∧
      { j with state := JState.processing, worker_id := some w, updated_at := now }
        ∈ (fetch_and_lock_job db w now).1) ∧
    ((fetch_and_lock_job db w now).2 = none ↔ ∀ k ∈ db, eligible now k = false) := by
  constructor
  · intro j hj
    have hsel : selectJob db now = some j := by
      unfold fetch_and_lock_job at hj
      cases hs : selectJob db now with
      | none => simp only [hs] at hj; exact Option.noConfusion hj
      | some b => simp only [hs] at hj; rw [hj]
    refine ⟨selectJob_mem hsel, selectJob_eligible hsel, ?_, selectJob_min hsel, ?_⟩
    · intro t hf ht
      exact eligible_failed_retry (selectJob_eligible hsel) hf ht
    · unfold fetch_and_lock_job
      simp only [hsel]
      unfold lockJob
      refine List.mem_map.2 ⟨j, selectJob_mem hsel, ?_⟩
      rw [if_pos ⟨rfl, eligible_state (selectJob_eligible hsel)⟩]
  · constructor
    · intro h
      cases hs : selectJob db now with
      | none => exact selectJob_none_iff.1 hs
      | some b =>
        unfold fetch_and_lock_job at h
        simp only [hs] at h
        exact Option.noConfusion h
    · intro h
      unfold fetch_and_lock_job
      simp only [selectJob_none_iff.2 h]

/-- Witness for C2 at a one-job store: the pending job `jobA0` is returned,
is eligible, and its stored row is locked to worker "w1" at time 5. -/
theorem acquire_spec_witness :
    jobA0 ∈ [jobA0] ∧ eligible 5 jobA0 = true ∧
    { jobA0 with state := JState.processing, worker_id := some "w1", updated_at := 5 }
      ∈ (fetch_and_lock_job [jobA0] "w1" 5).1 := by
  have h := (acquire_spec [jobA0] "w1" 5).1 jobA0 (by decide)
  exact ⟨h.1, h.2.1, h.2.2.2.2⟩

/-- Image of the row `r` in the non-DLQ branch of `_handle_failure`: the
fail UPDATE composed with `set_next_retry`. -/
theorem handle_failure_retry_mem (db : Db) (r : Job) (err : String)
    (base now : Nat) (hr : r ∈ db) (h : r.attempts + 1 < r.max_retries) :
    { r with state := JState.failed, attempts := r.attempts + 1, worker_id := none,
             last_error := some err, updated_at := now,
             next_retry_at := some (now + base ^ (r.attempts + 1)) }
      ∈ handle_failure db r.id r.attempts r.max_retries err base now := by
  unfold handle_failure
  rw [if_neg (Nat.not_le.2 h)]
  unfold set_next_retry update_job_state
  simp only [List.map_map]
  refine List.mem_map.2 ⟨r, hr, ?_⟩
  simp

/-- C3: `_handle_failure` on the row `r` (the worker's snapshot fields
`job["attempts"]`/`job["max_retries"]` agree with the row, since locking never
changes them) first increments `attempts`; if the post-increment count
`r.attempts + 1` has reached `max_retries` the row is moved to the DLQ —
`state = dead`, and `next_retry_at` is left exactly as it was (`{r with ...}`
does not touch it), i.e. no retry is scheduled — so a job at exactly
`max_retries` attempts is evicted, never rescheduled; below the threshold the
row instead stays `failed` with a retry scheduled, so an always-failing job
with `max_retries = n` is dead after exactly `n` failed attempts, never
fewer. -/
theorem dlq_threshold (db : Db) (r : Job) (err : String) (base now : Nat)
    (hr : r ∈ db) :
    (r.max_retries ≤ r.attempts + 1 →
      { r with state := JState.dead, attempts := r.attempts + 1, worker_id := none,
               last_error := some err, updated_at := now }
        ∈ handle_failure db r.id r.attempts r.max_retries err base now) ∧
    (r.attempts + 1 < r.max_retries →
      { r with state := JState.failed, attempts := r.attempts + 1, worker_id := none,
               last_error := some err, updated_at := now,
               next_retry_at := some (now + base ^ (r.attempts + 1)) }
        ∈ handle_failure db r.id r.attempts r.max_retries err base now) := by
  constructor
  · intro h
    unfold handle_failure
    rw [if_pos h]
    unfold move_to_dlq update_job_state
    simp only [List.map_map]
    refine List.mem_map.2 ⟨r, hr, ?_⟩
    simp
  · exact handle_failure_retry_mem db r err base now hr

/-- Witness for C3: the job `jobProcE` (attempts 1, `max_retries` 2) fails a
second time; post-increment attempts 2 = `max_retries`, so the row lands in
the DLQ with `next_retry_at` untouched. -/
theorem dlq_threshold_witness :
    { jobProcE with state := JState.dead, attempts := 2, worker_id := none,
                    last_error := some "boom", updated_at := 6 }
      ∈ handle_failure [jobProcE] "e" 1 2 "boom" 2 6 :=
  (dlq_threshold [jobProcE] jobProcE "boom" 2 6 (by decide)).1 (by decide)

/-- C4: on a failure that does not reach the DLQ threshold the scheduled
retry time is `now + base ^ (attempts + 1)` — the delay is the backoff base
raised to the post-increment attempt count, in seconds — and for any base
≥ 2 the delay strictly grows with each further attempt. -/
theorem backoff_growth (db : Db) (r : Job) (err : String) (base now : Nat)
    (hr : r ∈ db) (h : r.attempts + 1 < r.max_retries) :
    ({ r with state := JState.failed, attempts := r.attempts + 1, worker_id := none,
              last_error := some err, updated_at := now,
              next_retry_at := some (now + base ^ (r.attempts + 1)) }
        ∈ handle_failure db r.id r.attempts r.max_retries err base now) ∧
    (2 ≤ base → base ^ (r.attempts + 1) < base ^ (r.attempts + 1 + 1)) := by
  refine ⟨handle_failure_retry_mem db r err base now hr h, ?_⟩
  intro hb
  exact Nat.pow_lt_pow_succ hb

/-- Witness for C4: first failure of `jobA0` with `backoff_base = 2` at time
10 schedules the retry at `10 + 2 ^ 1 = 12` (a 2-second delay), and
`2 ^ 1 < 2 ^ 2` (the next delay would be 4 seconds). -/
theorem backoff_growth_witness :
    ({ jobA0 with state := JState.failed, attempts := 1, worker_id := none,
                  last_error := some "boom", updated_at := 10,
                  next_retry_at := some 12 }
        ∈ handle_failure [jobA0] "a" 0 3 "boom" 2 10) ∧
    (2 : Nat) ^ 1 < (2 : Nat) ^ 2 := by
  have h := backoff_growth [jobA0] jobA0 "boom" 2 10 (by decide) (by decide)
  exact ⟨h.1, h.2 (by decide)⟩

/-! ### A concrete run: enqueue, acquire, fail once, re-acquire -/

/-- After `enqueue "a"` at time 0. -/
def dbT1 : Db := (enqueue [] "a" "cmd" 3 0).1

/-- After worker "w1" acquires "a" at time 1. -/
def dbT2 : Db := (fetch_and_lock_job dbT1 "w1" 1).1

/-- After "a" fails at time 2 (snapshot attempts 0, max_retries 3,
backoff base 2): the row is `failed` with `next_retry_at = some 4`. -/
def dbT3 : Db := handle_failure dbT2 "a" 0 3 "boom" 2 2

/-- After worker "w2" re-acquires "a" at time 10, past the retry time. -/
def dbT4 : Db := (fetch_and_lock_job dbT3 "w2" 10).1

/-- Proof that the four-step run above is a run of the repository's
operations. -/
theorem dbT4_reachable : Reachable dbT4 :=
  Reachable.step
    (Reachable.step
      (Reachable.step
        (Reachable.step Reachable.init (Step.enq [] "a" "cmd" 3 0))
        (Step.acquire dbT1 "w1" 1))
      (Step.fail dbT2 "a" 0 3 "boom" 2 2))
    (Step.acquire dbT3 "w2" 10)

/-- C6 counterexample: in the reachable state `dbT4` the single row is in
state `processing` while still carrying `next_retry_at = some 4`: the UPDATE
of `fetch_and_lock_job` sets only `state`, `worker_id` and `updated_at` and
never clears `next_retry_at`, so a non-null `next_retry_at` does not belong
only to `failed` jobs. -/
theorem next_retry_only_failed_counterexample :
    Reachable dbT4 ∧
    dbT4 = [{ id := "a", command := "cmd", state := JState.processing,
              attempts := 1, max_retries := 3, created_at := 0, updated_at := 10,
              worker_id := some "w2", last_error := some "boom",
              next_retry_at := some 4 }] ∧
    ∃ j ∈ dbT4, j.next_retry_at ≠ none ∧ j.state ≠ JState.failed :=
  ⟨dbT4_reachable, by decide, by decide⟩

/-- C6 amended: what does hold in every reachable state is that a `pending`
job never carries a non-null `next_retry_at`: `next_retry_at` is only ever
set by `set_next_retry`, which `_handle_failure` applies to a row it has just
marked `failed`, and both paths back to `pending` (`enqueue`,
`retry_dlq_job`) null the field; but transitions out of `failed`
(`fetch_and_lock_job`, `update_job_state`) leave it in place, so
`processing`, `completed` and `dead` rows may carry one. -/
theorem pending_has_no_next_retry {db : Db} (h : Reachable db) :
    ∀ j ∈ db, j.state = JState.pending → j.next_retry_at = none := by
  induction h with
  | init => intro j hj; cases hj
  | step _ hs ih => exact step_pending_inv hs ih

/-- Witness for the amended C6 at the reachable one-row store `dbT1`, whose
row is pending. -/
theorem pending_has_no_next_retry_witness :
    ({ id := "a", command := "cmd", state := JState.pending, attempts := 0,
       max_retries := 3, created_at := 0, updated_at := 0, worker_id := none,
       last_error := none, next_retry_at := none } : Job).next_retry_at = none :=
  pending_has_no_next_retry
    (Reachable.step Reachable.init (Step.enq [] "a" "cmd" 3 0))
    _ (by decide) (by decide)

/-- C7: in every reachable store state a row's `worker_id` is non-null iff
its state is `processing`: `enqueue` inserts null/pending, the acquisition
UPDATE sets `worker_id` together with `state='processing'`, and every
transition out of `processing` (`complete`, `_handle_failure`'s
fail/DLQ updates, `retry_dlq_job`) passes `worker_id = NULL`. -/
theorem worker_id_iff_processing {db : Db} (h : Reachable db) :
    ∀ j ∈ db, (j.worker_id ≠ none ↔ j.state = JState.processing) := by
  induction h with
  | init => intro j hj; cases hj
  | step _ hs ih => exact step_worker_inv hs ih

/-- Witness for C7 at the reachable store `dbT2`, whose row is held by
worker "w1": `worker_id = some "w1" ≠ none` and the state is `processing`. -/
theorem worker_id_iff_processing_witness :
    (({ id := "a", command := "cmd", state := JState.processing, attempts := 0,
        max_retries := 3, created_at := 0, updated_at := 1,
        worker_id := some "w1", last_error := none,
        next_retry_at := none } : Job).worker_id ≠ none ↔
      ({ id := "a", command := "cmd", state := JState.processing, attempts := 0,
         max_retries := 3, created_at := 0, updated_at := 1,
         worker_id := some "w1", last_error := none,
         next_retry_at := none } : Job).state = JState.processing) :=
  worker_id_iff_processing
    (Reachable.step
      (Reachable.step Reachable.init (Step.enq [] "a" "cmd" 3 0))
      (Step.acquire dbT1 "w1" 1))
    _ (by decide)

/-- C8 amended: every mutating operation except `set_next_retry` stamps
`updated_at` with the mutation time: `set_next_retry` leaves every row's
`updated_at` exactly as it was, while the rows produced by
`update_job_state` (hence `complete`, the fail update and `move_to_dlq`),
`retry_dlq_job`, the locking UPDATE of `fetch_and_lock_job`, and `enqueue`
are each either stamped with `now` or are unchanged original rows. -/
theorem updated_at_amended (db : Db) (jid id command wkr : String) (t : Nat)
    (st : JState) (e w : Option String) (inc : Bool) (now mr : Nat) :
    ((set_next_retry db jid t).1.map Job.updated_at = db.map Job.updated_at) ∧
    (∀ j ∈ (update_job_state db jid st e w inc now).1,
      j.updated_at = now ∨ j ∈ db) ∧
    (∀ j ∈ (retry_dlq_job db jid now).1, j.updated_at = now ∨ j ∈ db) ∧
    (∀ j ∈ lockJob db jid wkr now, j.updated_at = now ∨ j ∈ db) ∧
    (∀ j ∈ (enqueue db id command mr now).1, j.updated_at = now ∨ j ∈ db) := by
  refine ⟨?_, ?_, ?_, ?_, ?_⟩
  · unfold set_next_retry
    simp only [List.map_map]
    refine List.map_congr_left ?_
    intro k _
    by_cases hc : k.id = jid
    · simp [hc]
    · simp [hc]
  · intro j hj
    unfold update_job_state at hj
    rcases List.mem_map.1 hj with ⟨k, hk, rfl⟩
    by_cases hc : k.id = jid
    · rw [if_pos hc]; left; rfl
    · rw [if_neg hc]; right; exact hk
  · intro j hj
    unfold retry_dlq_job at hj
    rcases List.mem_map.1 hj with ⟨k, hk, rfl⟩
    by_cases hc : k.id = jid ∧ k.state = JState.dead
    · rw [if_pos hc]; left; rfl
    · rw [if_neg hc]; right; exact hk
  · intro j hj
    unfold lockJob at hj
    rcases List.mem_map.1 hj with ⟨k, hk, rfl⟩
    by_cases hc : k.id = jid ∧ (k.state = JState.pending ∨ k.state = JState.failed)
    · rw [if_pos hc]; left; rfl
    · rw [if_neg hc]; right; exact hk
  · intro j hj
    unfold enqueue at hj
    split at hj
    · right; exact hj
    · rcases List.mem_append.1 hj with h1 | h1
      · right; exact h1
      · rcases List.mem_singleton.1 h1 with rfl
        left; rfl

/-- The row the mark-dead `update_job_state` call produces from `jobFailedD`
at time 9. -/
def jobFailedD9 : Job :=
  { jobFailedD with state := JState.dead, updated_at := 9, worker_id := none,
                    last_error := some "x" }

/-- Witness for the amended C8: `set_next_retry` on the one-row store leaves
the stored `updated_at` list unchanged, and the row `update_job_state`
produces at time 9 is stamped 9 (it is not an unchanged original row). -/
theorem updated_at_amended_witness :
    ((set_next_retry [jobFailedD] "d" 10).1.map Job.updated_at =
      [jobFailedD].map Job.updated_at) ∧
    (jobFailedD9.updated_at = 9 ∨ jobFailedD9 ∈ [jobFailedD]) := by
  have h := updated_at_amended [jobFailedD] "d" "x" "cmd" "w1" 10 JState.dead
    (some "x") none false 9 3
  exact ⟨h.1, h.2.1 jobFailedD9 (by decide)⟩

/-- C9: `Complete` cannot corrupt other rows and is harmless when the target
is missing or already completed: for every store, the sublist of rows whose
id differs from the completed id is exactly unchanged (same rows, same order,
same multiplicity), and the call is a total function whose boolean result is
just the row-matched flag — a second `Complete` on the same id, or one on a
missing id, returns normally (the source maps a storage exception to `False`;
no state-based error exists). -/
theorem complete_frame (db : Db) (X : String) (now : Nat) :
    ((complete db X now).1.filter (fun j => !decide (j.id = X)) =
      db.filter (fun j => !decide (j.id = X))) ∧
    ((complete db X now).2 = db.any (fun j => decide (j.id = X))) := by
  constructor
  · unfold complete update_job_state
    induction db with
    | nil => rfl
    | cons a rest ih =>
      by_cases hc : a.id = X
      · simpa [hc] using ih
      · simpa [hc] using ih
  · rfl

/-- C10: `Complete` is unguarded by current state: its UPDATE matches on id
alone, so for every existing row — whatever its state — it sets
`state='completed'` and overwrites `worker_id` and `last_error` with null
(stamping `updated_at`), and it returns true iff a row with the id exists. -/
theorem complete_unguarded (db : Db) (X : String) (now : Nat) :
    ((complete db X now).2 = true ↔ ∃ j ∈ db, j.id = X) ∧
    (∀ j ∈ db, j.id = X →
      { j with state := JState.completed, worker_id := none, last_error := none,
               updated_at := now } ∈ (complete db X now).1) := by
  constructor
  · unfold complete update_job_state
    simp [List.any_eq_true]
  · intro j hj hid
    unfold complete update_job_state
    refine List.mem_map.2 ⟨j, hj, ?_⟩
    rw [if_pos hid]
    simp

/-- Witness for C10: completing the dead job "c" at time 11 marks its row
completed with null `worker_id`/`last_error`, and the call returns true. -/
theorem complete_unguarded_witness :
    ({ jobDeadC with state := JState.completed, worker_id := none,
                     last_error := none, updated_at := 11 }
        ∈ (complete [jobDeadC] "c" 11).1) ∧
    (complete [jobDeadC] "c" 11).2 = true := by
  have h := complete_unguarded [jobDeadC] "c" 11
  exact ⟨h.2 jobDeadC (by decide) (by decide), h.1.2 ⟨jobDeadC, by decide, by decide⟩⟩

end JobQueue
